import Mathlib

/-
Shallow embedding of the validation-and-marshaling layer of the
hacl-packages Rust bindings (src/rust/src/hazmat/p256.rs and
src/rust/src/hazmat/curve25519.rs).

Byte buffers are modelled as `List Nat`.  The trusted cryptographic
backend (the extern Hacl_* functions) is not part of the sources; each
wrapper therefore takes the backend routine it calls as an explicit
function parameter, mirroring the extern imports of the Rust file:
  Hacl_P256_uncompressed_to_raw  : Bytes -> Option Bytes  (None = failure)
  Hacl_P256_compressed_to_raw    : Bytes -> Option Bytes
  Hacl_P256_validate_private_key : Bytes -> Bool
  Hacl_P256_dh_initiator         : Bytes -> Option Bytes
  Hacl_P256_ecdsa_sign_*         : msg -> key -> nonce -> Option Bytes
A success case returns the bytes that the backend writes into the out
buffer.  Quantifying theorems over the backend parameter expresses that
a result is reached without consulting the backend.
-/

namespace HaclP256

abbrev Bytes := List Nat

inductive Error where
  | InvalidInput
  | InvalidScalar
  | InvalidPoint
  | NoCompressedPoint
  | NoUnCompressedPoint
  | SigningFailed
deriving DecidableEq, Repr

/-- Embedding of `uncompressed_to_coordinates` from p256.rs: length
precondition, then the backend parser `Hacl_P256_uncompressed_to_raw`. -/
def uncompressed_to_coordinates (hacl_uncompressed_to_raw : Bytes → Option Bytes)
    (point : Bytes) : Except Error Bytes :=
  if point.length ≥ 65 then
    match hacl_uncompressed_to_raw point with
    | some concat_point => .ok concat_point
    | none => .error .InvalidInput
  else
    .error .NoCompressedPoint

/-- Embedding of `compressed_to_coordinates` from p256.rs: length
precondition, then the backend parser `Hacl_P256_compressed_to_raw`. -/
def compressed_to_coordinates (hacl_compressed_to_raw : Bytes → Option Bytes)
    (point : Bytes) : Except Error Bytes :=
  if point.length ≥ 33 then
    match hacl_compressed_to_raw point with
    | some concat_point => .ok concat_point
    | none => .error .InvalidInput
  else
    .error .NoUnCompressedPoint

/-- Embedding of `validate_scalar` from p256.rs: local all-zero check,
then the backend range check `Hacl_P256_validate_private_key`. -/
def validate_scalar (hacl_validate_private_key : Bytes → Bool)
    (scalar : Bytes) : Except Error Unit :=
  if scalar.all (· == 0) then
    .error .InvalidScalar
  else if hacl_validate_private_key scalar then
    .ok ()
  else
    .error .InvalidScalar

/-- The `sk_len` local of `validate_scalar_slice`: the number of bytes
copied from the tail of the input. -/
def sk_len (scalar : Bytes) : Nat :=
  if scalar.length ≥ 32 then 32 else scalar.length

/-- The normalization loop of `validate_scalar_slice`:
`for i in 0..sk_len { private[31 - i] = scalar[scalar.len() - 1 - i]; }`
starting from the 32-byte zero buffer `private`. -/
def build_private (scalar : Bytes) : Bytes :=
  (List.range (sk_len scalar)).foldl
    (fun priv i => priv.set (31 - i) (scalar.getD (scalar.length - 1 - i) 0))
    (List.replicate 32 0)

/-- Embedding of `validate_scalar_slice` from p256.rs: empty check,
right-aligned zero-padded normalization to 32 bytes, then
`validate_scalar` on the normalized buffer. -/
def validate_scalar_slice (hacl_validate_private_key : Bytes → Bool)
    (scalar : Bytes) : Except Error Bytes :=
  if scalar.isEmpty then
    .error .InvalidScalar
  else
    let priv := build_private scalar
    (validate_scalar hacl_validate_private_key priv).map (fun _ => priv)

/-- Embedding of `secret_to_public` from p256.rs: `validate_scalar`
first, then the backend base-point multiplication
`Hacl_P256_dh_initiator`; backend failure maps to `InvalidScalar`. -/
def secret_to_public (hacl_validate_private_key : Bytes → Bool)
    (hacl_dh_initiator : Bytes → Option Bytes) (s : Bytes) : Except Error Bytes :=
  match validate_scalar hacl_validate_private_key s with
  | .error e => .error e
  | .ok _ =>
    match hacl_dh_initiator s with
    | some out => .ok out
    | none => .error .InvalidScalar

/-- Embedding of the body of the `impl_sign!` macro from p256.rs:
validate the nonce, normalize and validate the key, then call the
backend signer; backend failure maps to `SigningFailed`. -/
def impl_sign (hacl_validate_private_key : Bytes → Bool)
    (hacl_ecdsa_sign : Bytes → Bytes → Bytes → Option Bytes)
    (msg : Bytes) (sk : Bytes) (nonce : Bytes) : Except Error Bytes :=
  match validate_scalar hacl_validate_private_key nonce with
  | .error e => .error e
  | .ok _ =>
    match validate_scalar_slice hacl_validate_private_key sk with
    | .error e => .error e
    | .ok priv =>
      match hacl_ecdsa_sign msg priv nonce with
      | some signature => .ok signature
      | none => .error .SigningFailed

/-- The argument types of the signing functions generated by
`impl_sign!`: `(msg: &[u8], sk: &[u8; 32], nonce: [u8; 32])` — the
message is an arbitrary slice, while the secret key and the nonce are
fixed 32-byte arrays. -/
def sign_args_ok (sk : Bytes) (nonce : Bytes) : Prop :=
  sk.length = 32 ∧ nonce.length = 32

/-- `impl_sign!(sign_sha256, Hacl_P256_ecdsa_sign_p256_sha2)`. -/
def sign_sha256 (hacl_validate_private_key : Bytes → Bool)
    (hacl_ecdsa_sign_p256_sha2 : Bytes → Bytes → Bytes → Option Bytes)
    (msg : Bytes) (sk : Bytes) (nonce : Bytes) : Except Error Bytes :=
  impl_sign hacl_validate_private_key hacl_ecdsa_sign_p256_sha2 msg sk nonce

/-- `impl_sign!(sign_sha384, Hacl_P256_ecdsa_sign_p256_sha384)`. -/
def sign_sha384 (hacl_validate_private_key : Bytes → Bool)
    (hacl_ecdsa_sign_p256_sha384 : Bytes → Bytes → Bytes → Option Bytes)
    (msg : Bytes) (sk : Bytes) (nonce : Bytes) : Except Error Bytes :=
  impl_sign hacl_validate_private_key hacl_ecdsa_sign_p256_sha384 msg sk nonce

/-- `impl_sign!(sign_sha512, Hacl_P256_ecdsa_sign_p256_sha512)`. -/
def sign_sha512 (hacl_validate_private_key : Bytes → Bool)
    (hacl_ecdsa_sign_p256_sha512 : Bytes → Bytes → Bytes → Option Bytes)
    (msg : Bytes) (sk : Bytes) (nonce : Bytes) : Except Error Bytes :=
  impl_sign hacl_validate_private_key hacl_ecdsa_sign_p256_sha512 msg sk nonce

end HaclP256

namespace HaclCurve25519

open HaclP256 (Bytes)

/-- Embedding of `secret_to_public` from curve25519.rs: the backend
`Hacl_Curve25519_51_secret_to_public` writes the public key into a
32-byte buffer; the wrapper returns it with no error path. -/
def secret_to_public (hacl_secret_to_public : Bytes → Bytes)
    (private_key : Bytes) : Bytes :=
  hacl_secret_to_public private_key

end HaclCurve25519

namespace HaclP256

-- Concrete backends used by witnesses.
def bkTrue : Bytes → Bool := fun _ => true
def bkFalse : Bytes → Bool := fun _ => false
def signNone : Bytes → Bytes → Bytes → Option Bytes := fun _ _ _ => none
def signOne : Bytes → Bytes → Bytes → Option Bytes := fun _ _ _ => some (List.replicate 64 1)
def zero32 : Bytes := List.replicate 32 0
def one32 : Bytes := List.replicate 31 0 ++ [1]
def two32 : Bytes := List.replicate 31 0 ++ [2]

def s40 : Bytes := List.replicate 39 0 ++ [9]
def dhNone : Bytes → Option Bytes := fun _ => none
def dhSome : Bytes → Option Bytes := fun _ => some (List.replicate 64 2)
def base32 : Bytes → Bytes := fun _ => List.replicate 32 7

-- Helper lemmas (shared; not tied to any single claim).

theorem sk_len_le_32 (s : Bytes) : sk_len s ≤ 32 := by
  unfold sk_len; split <;> omega

theorem sk_len_le_length (s : Bytes) : sk_len s ≤ s.length := by
  unfold sk_len; split <;> omega

theorem set_replicate_last (n : Nat) (a b : Nat) :
    (List.replicate (n + 1) a).set n b = List.replicate n a ++ [b] := by
  rw [List.replicate_succ', List.set_append]
  simp

theorem build_loop (s : Bytes) (k : Nat) (hk : k ≤ sk_len s) :
    (List.range k).foldl
      (fun priv i => priv.set (31 - i) (s.getD (s.length - 1 - i) 0))
      (List.replicate 32 0)
    = List.replicate (32 - k) 0 ++ s.drop (s.length - k) := by
  induction k with
  | zero => simp [List.drop_length]
  | succ k ih =>
    have h32 : sk_len s ≤ 32 := sk_len_le_32 s
    have hlen : sk_len s ≤ s.length := sk_len_le_length s
    have hk32 : k < 32 := by omega
    have hklen : k < s.length := by omega
    rw [List.range_succ, List.foldl_append, ih (by omega)]
    simp only [List.foldl_cons, List.foldl_nil]
    have hrep : (32 : Nat) - k = (31 - k) + 1 := by omega
    have hidx : s.length - 1 - k = s.length - (k + 1) := by omega
    have hlt : s.length - (k + 1) < s.length := by omega
    have hdrop : s.length - (k + 1) + 1 = s.length - k := by omega
    rw [List.set_append, if_pos (by simp; omega), hrep, set_replicate_last,
      hidx, List.getD_eq_getElem s 0 hlt]
    have hsub : (32 : Nat) - (k + 1) = 31 - k := by omega
    rw [hsub, List.drop_eq_getElem_cons hlt, hdrop]
    simp

theorem build_private_eq (s : Bytes) :
    build_private s =
      List.replicate (32 - sk_len s) 0 ++ s.drop (s.length - sk_len s) :=
  build_loop s (sk_len s) le_rfl

theorem build_private_of_length_32 (s : Bytes) (h : s.length = 32) :
    build_private s = s := by
  rw [build_private_eq]
  have : sk_len s = 32 := by unfold sk_len; rw [if_pos (by omega)]
  simp [this, h]

theorem length_build_private (s : Bytes) : (build_private s).length = 32 := by
  rw [build_private_eq]
  have h1 := sk_len_le_32 s
  have h2 := sk_len_le_length s
  simp
  omega

theorem validate_scalar_cases (v : Bytes → Bool) (s : Bytes) :
    validate_scalar v s = .ok () ∨ validate_scalar v s = .error .InvalidScalar := by
  unfold validate_scalar
  split
  · exact Or.inr rfl
  · split
    · exact Or.inl rfl
    · exact Or.inr rfl

theorem validate_scalar_slice_cases (v : Bytes → Bool) (s : Bytes) :
    validate_scalar_slice v s = .ok (build_private s) ∨
    validate_scalar_slice v s = .error .InvalidScalar := by
  unfold validate_scalar_slice
  split
  · exact Or.inr rfl
  · rcases validate_scalar_cases v (build_private s) with h | h <;>
      simp [h, Except.map]

/-- Claim C1: in sign_sha256, sign_sha384 and sign_sha512 the nonce is
validated via validate_scalar before the secret key is validated and
before the backend signer is invoked: whenever validate_scalar rejects
the nonce (for example the all-zero nonce), signing returns
Error.InvalidScalar for every message, every secret key (including an
invalid one) and every backend signer, so the error is the one arising
from the nonce check and the backend signer is never consulted. -/
theorem sign_nonce_checked_before_key (v : Bytes → Bool)
    (s2 s3 s5 : Bytes → Bytes → Bytes → Option Bytes)
    (msg sk nonce : Bytes)
    (h : validate_scalar v nonce ≠ .ok ()) :
    sign_sha256 v s2 msg sk nonce = .error .InvalidScalar ∧
    sign_sha384 v s3 msg sk nonce = .error .InvalidScalar ∧
    sign_sha512 v s5 msg sk nonce = .error .InvalidScalar := by
  have he : validate_scalar v nonce = .error .InvalidScalar := by
    rcases validate_scalar_cases v nonce with h1 | h1
    · exact absurd h1 h
    · exact h1
  exact ⟨by simp [sign_sha256, impl_sign, he],
         by simp [sign_sha384, impl_sign, he],
         by simp [sign_sha512, impl_sign, he]⟩

/-- Witness for C1 at the all-zero nonce and an invalid (all-zero) key. -/
theorem sign_nonce_checked_before_key_witness :
    validate_scalar bkTrue zero32 ≠ .ok () ∧
    sign_sha256 bkTrue signOne [] zero32 zero32 = .error .InvalidScalar ∧
    sign_sha384 bkTrue signOne [] zero32 zero32 = .error .InvalidScalar ∧
    sign_sha512 bkTrue signOne [] zero32 zero32 = .error .InvalidScalar :=
  have h : validate_scalar bkTrue zero32 ≠ .ok () := fun hc => Except.noConfusion hc
  ⟨h,
   (sign_nonce_checked_before_key bkTrue signOne signOne signOne [] zero32 zero32 h).1,
   (sign_nonce_checked_before_key bkTrue signOne signOne signOne [] zero32 zero32 h).2.1,
   (sign_nonce_checked_before_key bkTrue signOne signOne signOne [] zero32 zero32 h).2.2⟩

/-- Claim C2: validate_scalar rejects the all-zero 32-byte buffer with
Error.InvalidScalar regardless of the backend, rejects with the same
Error.InvalidScalar whenever the backend range check fails, accepts
otherwise, and its result is always either Ok or Error.InvalidScalar,
so the two failure causes are indistinguishable. -/
theorem validate_scalar_spec (v : Bytes → Bool) (s : Bytes)
    (hlen : s.length = 32) :
    (s.all (· == 0) = true → validate_scalar v s = .error .InvalidScalar) ∧
    (v s = false → validate_scalar v s = .error .InvalidScalar) ∧
    (s.all (· == 0) = false → v s = true → validate_scalar v s = .ok ()) ∧
    (validate_scalar v s = .ok () ∨ validate_scalar v s = .error .InvalidScalar) := by
  refine ⟨?_, ?_, ?_, validate_scalar_cases v s⟩
  · intro h
    simp [validate_scalar, h]
  · intro h
    unfold validate_scalar
    split
    · rfl
    · simp [h]
  · intro h1 h2
    simp [validate_scalar, h1, h2]

/-- Witness for C2: the zero scalar, a backend-rejected scalar, and an
accepted scalar. -/
theorem validate_scalar_spec_witness :
    validate_scalar bkTrue zero32 = .error .InvalidScalar ∧
    validate_scalar bkFalse one32 = .error .InvalidScalar ∧
    validate_scalar bkTrue one32 = .ok () :=
  ⟨(validate_scalar_spec bkTrue zero32 rfl).1 rfl,
   (validate_scalar_spec bkFalse one32 rfl).2.1 rfl,
   (validate_scalar_spec bkTrue one32 rfl).2.2.1 rfl rfl⟩

/-- Claim C3: for every input longer than 32 bytes,
validate_scalar_slice returns exactly the same result as on the last 32
bytes of that input alone: the most-significant excess bytes are
silently truncated and never influence the output. -/
theorem validate_scalar_slice_truncates (v : Bytes → Bool) (s : Bytes)
    (h : 32 < s.length) :
    validate_scalar_slice v s =
      validate_scalar_slice v (s.drop (s.length - 32)) := by
  have hsk : sk_len s = 32 := by unfold sk_len; rw [if_pos (by omega)]
  have hbs : build_private s = s.drop (s.length - 32) := by
    rw [build_private_eq, hsk]
    simp
  have htlen : (s.drop (s.length - 32)).length = 32 := by
    rw [List.length_drop]
    omega
  have hbt : build_private (s.drop (s.length - 32)) = s.drop (s.length - 32) :=
    build_private_of_length_32 _ htlen
  have hse : s.isEmpty = false := by
    cases s with
    | nil => simp at h
    | cons a l => rfl
  have hte : (s.drop (s.length - 32)).isEmpty = false := by
    cases hd : s.drop (s.length - 32) with
    | nil => rw [hd] at htlen; simp at htlen
    | cons a l => rfl
  simp [validate_scalar_slice, hse, hte, hbs, hbt]

/-- Witness for C3 at a concrete 40-byte input. -/
theorem validate_scalar_slice_truncates_witness :
    32 < s40.length ∧
    validate_scalar_slice bkTrue s40 =
      validate_scalar_slice bkTrue (s40.drop (s40.length - 32)) :=
  ⟨by decide, validate_scalar_slice_truncates bkTrue s40 (by decide)⟩

/-- Claim C4: uncompressed_to_coordinates returns
Error.NoCompressedPoint on every input shorter than 65 bytes and
compressed_to_coordinates returns Error.NoUnCompressedPoint on every
input shorter than 33 bytes, for every backend parser, so a too-short
input can never produce Error.InvalidInput or a success value. -/
theorem short_point_inputs (u c : Bytes → Option Bytes) (p q : Bytes)
    (hp : p.length < 65) (hq : q.length < 33) :
    uncompressed_to_coordinates u p = .error .NoCompressedPoint ∧
    compressed_to_coordinates c q = .error .NoUnCompressedPoint := by
  constructor
  · unfold uncompressed_to_coordinates
    rw [if_neg (by omega)]
  · unfold compressed_to_coordinates
    rw [if_neg (by omega)]

/-- Witness for C4 at the empty input. -/
theorem short_point_inputs_witness :
    ([] : Bytes).length < 65 ∧ ([] : Bytes).length < 33 ∧
    uncompressed_to_coordinates dhNone [] = .error .NoCompressedPoint ∧
    compressed_to_coordinates dhNone [] = .error .NoUnCompressedPoint :=
  ⟨by decide, by decide,
   (short_point_inputs dhNone dhNone [] [] (by decide) (by decide)).1,
   (short_point_inputs dhNone dhNone [] [] (by decide) (by decide)).2⟩

/-- Claim C5: P-256 secret_to_public validates the scalar first and only
then invokes the backend base-point multiplication: if validation fails
the result is Error.InvalidScalar for every backend multiplication
function (so the backend is never consulted); if the backend fails
after successful validation the result is also Error.InvalidScalar;
and the function never returns Error.InvalidInput. -/
theorem secret_to_public_validates_first (v : Bytes → Bool)
    (dh : Bytes → Option Bytes) (s : Bytes) :
    (validate_scalar v s ≠ .ok () →
      ∀ dh2 : Bytes → Option Bytes,
        secret_to_public v dh2 s = .error .InvalidScalar) ∧
    (validate_scalar v s = .ok () → dh s = none →
      secret_to_public v dh s = .error .InvalidScalar) ∧
    secret_to_public v dh s ≠ .error .InvalidInput := by
  refine ⟨?_, ?_, ?_⟩
  · intro h dh2
    rcases validate_scalar_cases v s with h1 | h1
    · exact absurd h1 h
    · simp [secret_to_public, h1]
  · intro h1 h2
    simp [secret_to_public, h1, h2]
  · intro hc
    unfold secret_to_public at hc
    rcases validate_scalar_cases v s with h1 | h1 <;> rw [h1] at hc
    · cases hdh : dh s with
      | none => rw [hdh] at hc; simp at hc
      | some out => rw [hdh] at hc; simp at hc
    · simp at hc

/-- Witness for C5: a rejected scalar, a backend failure after
acceptance, and the absence of InvalidInput on a successful run. -/
theorem secret_to_public_validates_first_witness :
    validate_scalar bkFalse one32 ≠ .ok () ∧
    secret_to_public bkFalse dhSome one32 = .error .InvalidScalar ∧
    validate_scalar bkTrue one32 = .ok () ∧ dhNone one32 = none ∧
    secret_to_public bkTrue dhNone one32 = .error .InvalidScalar ∧
    secret_to_public bkTrue dhSome one32 ≠ .error .InvalidInput :=
  have h1 : validate_scalar bkFalse one32 ≠ .ok () :=
    fun hc => Except.noConfusion hc
  ⟨h1,
   (secret_to_public_validates_first bkFalse dhSome one32).1 h1 dhSome,
   rfl, rfl,
   (secret_to_public_validates_first bkTrue dhNone one32).2.1 rfl rfl,
   (secret_to_public_validates_first bkTrue dhSome one32).2.2⟩

/-- Claim C6 counterexample: the signing entry points do not accept an
arbitrary-length secret key: a concrete 1-byte key lies outside the
declared argument types `(sk: &[u8; 32], nonce: [u8; 32])` of the
functions generated by `impl_sign!`. -/
theorem sign_sk_not_variable_length : ¬ sign_args_ok [5] one32 := by
  intro h
  exact absurd h.1 (by decide)

/-- Claim C6 (amended): the signing entry points take a fixed 32-byte
secret key; with a valid nonce, impl_sign still passes sk through
validate_scalar_slice — whose normalization is the identity on a
32-byte key — and returns Error.InvalidScalar when that validation
fails, invoking the backend signer with the normalized 32-byte scalar
otherwise. -/
theorem sign_normalizes_fixed_32_key (v : Bytes → Bool)
    (signer : Bytes → Bytes → Bytes → Option Bytes)
    (msg sk nonce : Bytes) (hsk : sk.length = 32)
    (hn : validate_scalar v nonce = .ok ()) :
    (validate_scalar_slice v sk = .error .InvalidScalar →
      impl_sign v signer msg sk nonce = .error .InvalidScalar) ∧
    (∀ priv, validate_scalar_slice v sk = .ok priv →
      priv = sk ∧ priv.length = 32 ∧
      impl_sign v signer msg sk nonce =
        (match signer msg priv nonce with
         | some signature => .ok signature
         | none => .error .SigningFailed)) := by
  constructor
  · intro h
    simp [impl_sign, hn, h]
  · intro priv h
    have hpriv : priv = sk := by
      rcases validate_scalar_slice_cases v sk with h1 | h1
      · rw [h] at h1
        injection h1 with h2
        rw [h2]
        exact build_private_of_length_32 sk hsk
      · rw [h] at h1
        exact Except.noConfusion h1
    refine ⟨hpriv, ?_, ?_⟩
    · rw [hpriv]
      exact hsk
    · simp [impl_sign, hn, h]

/-- Witness for the amended C6: an invalid all-zero 32-byte key fails
closed, and a valid 32-byte key is passed unchanged to the backend
signer. -/
theorem sign_normalizes_fixed_32_key_witness :
    validate_scalar bkTrue one32 = .ok () ∧
    validate_scalar_slice bkTrue zero32 = .error .InvalidScalar ∧
    impl_sign bkTrue signOne [] zero32 one32 = .error .InvalidScalar ∧
    validate_scalar_slice bkTrue two32 = .ok two32 ∧
    two32.length = 32 ∧
    impl_sign bkTrue signOne [] two32 one32 = .ok (List.replicate 64 1) :=
  have hslice : validate_scalar_slice bkTrue two32 = Except.ok two32 := by rfl
  ⟨rfl, rfl,
   (sign_normalizes_fixed_32_key bkTrue signOne [] zero32 one32 rfl rfl).1 rfl,
   hslice,
   ((sign_normalizes_fixed_32_key bkTrue signOne [] two32 one32 rfl rfl).2
     two32 hslice).2.1,
   by
     have h := ((sign_normalizes_fixed_32_key bkTrue signOne [] two32 one32 rfl rfl).2
       two32 hslice).2.2
     rw [h]
     rfl⟩

/-- Claim C7: validate_scalar_slice on the empty slice returns
Error.InvalidScalar immediately, for every backend, so neither the
normalization nor validate_scalar nor the backend is consulted. -/
theorem validate_scalar_slice_empty (v : Bytes → Bool) :
    validate_scalar_slice v [] = .error .InvalidScalar := rfl

/-- Claim C9: ECDSA signing is deterministic: two invocations of the
same signing function on the same message, secret key and nonce produce
the identical result, for each of the three hash variants. -/
theorem sign_deterministic (v : Bytes → Bool)
    (s2 s3 s5 : Bytes → Bytes → Bytes → Option Bytes)
    (msg1 msg2 sk1 sk2 nonce1 nonce2 : Bytes)
    (hm : msg1 = msg2) (hk : sk1 = sk2) (hn : nonce1 = nonce2) :
    sign_sha256 v s2 msg1 sk1 nonce1 = sign_sha256 v s2 msg2 sk2 nonce2 ∧
    sign_sha384 v s3 msg1 sk1 nonce1 = sign_sha384 v s3 msg2 sk2 nonce2 ∧
    sign_sha512 v s5 msg1 sk1 nonce1 = sign_sha512 v s5 msg2 sk2 nonce2 := by
  subst hm hk hn
  exact ⟨rfl, rfl, rfl⟩

/-- Witness for C9 at a concrete tuple. -/
theorem sign_deterministic_witness :
    sign_sha256 bkTrue signOne [3] two32 one32 = sign_sha256 bkTrue signOne [3] two32 one32 ∧
    sign_sha384 bkTrue signOne [3] two32 one32 = sign_sha384 bkTrue signOne [3] two32 one32 ∧
    sign_sha512 bkTrue signOne [3] two32 one32 = sign_sha512 bkTrue signOne [3] two32 one32 :=
  sign_deterministic bkTrue signOne signOne signOne [3] [3] two32 two32 one32 one32
    rfl rfl rfl

/-- Claim C10: on inputs of exactly 32 bytes validate_scalar_slice
behaves as validate_scalar: the normalization is the identity, the
result is validate_scalar's verdict carrying the unchanged input, and
every scalar returned by a successful validate_scalar_slice itself
satisfies validate_scalar. -/
theorem validate_scalar_slice_on_32_bytes (v : Bytes → Bool) (s : Bytes)
    (h : s.length = 32) :
    validate_scalar_slice v s = (validate_scalar v s).map (fun _ => s) ∧
    (∀ out, validate_scalar_slice v s = .ok out →
      out = s ∧ validate_scalar v out = .ok ()) := by
  have hb : build_private s = s := build_private_of_length_32 s h
  have hse : s.isEmpty = false := by
    cases s with
    | nil => simp at h
    | cons a l => rfl
  have heq : validate_scalar_slice v s = (validate_scalar v s).map (fun _ => s) := by
    simp [validate_scalar_slice, hse, hb]
  refine ⟨heq, ?_⟩
  intro out hout
  rw [heq] at hout
  rcases validate_scalar_cases v s with h1 | h1
  · rw [h1] at hout
    simp [Except.map] at hout
    subst hout
    exact ⟨rfl, h1⟩
  · rw [h1] at hout
    simp [Except.map] at hout

/-- Witness for C10 at a valid 32-byte scalar. -/
theorem validate_scalar_slice_on_32_bytes_witness :
    one32.length = 32 ∧
    validate_scalar_slice bkTrue one32 =
      (validate_scalar bkTrue one32).map (fun _ => one32) ∧
    (one32 = one32 ∧ validate_scalar bkTrue one32 = .ok ()) :=
  ⟨rfl,
   (validate_scalar_slice_on_32_bytes bkTrue one32 rfl).1,
   (validate_scalar_slice_on_32_bytes bkTrue one32 rfl).2 one32 rfl⟩

end HaclP256

namespace HaclCurve25519

/-- Claim C8: X25519 secret_to_public is total and infallible: for every
32-byte private key it returns the backend base-point multiplication
result, a 32-byte public key, with no error path in its result type. -/
theorem secret_to_public_total (base : HaclP256.Bytes → HaclP256.Bytes)
    (hbase : ∀ x, (base x).length = 32)
    (private_key : HaclP256.Bytes) (hkey : private_key.length = 32) :
    secret_to_public base private_key = base private_key ∧
    (secret_to_public base private_key).length = 32 :=
  ⟨rfl, hbase private_key⟩

/-- Witness for C8 at the all-zero private key. -/
theorem secret_to_public_total_witness :
    HaclP256.zero32.length = 32 ∧
    secret_to_public HaclP256.base32 HaclP256.zero32 =
      HaclP256.base32 HaclP256.zero32 ∧
    (secret_to_public HaclP256.base32 HaclP256.zero32).length = 32 :=
  ⟨rfl,
   (secret_to_public_total HaclP256.base32 (fun _ => rfl) HaclP256.zero32 rfl).1,
   (secret_to_public_total HaclP256.base32 (fun _ => rfl) HaclP256.zero32 rfl).2⟩

end HaclCurve25519
